import Mathlib

/-!
Verification of the miracle-client launcher core against its specification.

The Rust source is shallowly embedded below.  Pure string manipulation is
translated directly; stateful code (the on-disk install directory, the mods
directory, the network) is modelled by explicit state passing: a file system
is an association list from path to file content, and the network is a
function from URL to an optional response.  Hashing is modelled
content-addressed: the SHA-1 of a file's content is the content itself, so
"content matches declared hash h" is "content = h".  Fallible Rust functions
returning `Result` are embedded as `Except`.
-/

namespace FsModel

/-- Association-list store: used both for the install directory
(`path ↦ file content`) and the mods directory (`file name ↦ jar`).
`writeEntry` models `fs::write`: it replaces the entry in place when the
path already exists, otherwise appends it. -/
def writeEntry {α : Type} : List (String × α) → String → α → List (String × α)
  | [], p, c => [(p, c)]
  | e :: rest, p, c => if e.1 = p then (p, c) :: rest else e :: writeEntry rest p c

/-- Look up the content stored at a path. -/
def readEntry {α : Type} : List (String × α) → String → Option α
  | [], _ => none
  | e :: rest, p => if e.1 = p then some e.2 else readEntry rest p

/-- Model of `Path::exists`. -/
def entryExists {α : Type} (fs : List (String × α)) (p : String) : Bool :=
  (readEntry fs p).isSome

end FsModel

namespace Mc

/-! Shallow embedding of `src/launcher/src-tauri/src/minecraft/mod.rs`. -/

open FsModel

/-- A file system: install-directory paths to file contents.  Contents are
identified with their SHA-1 hash (content-addressed abstraction). -/
abbrev Fs := List (String × String)

/-- The network: URL to the content served there, `none` when the request
fails or returns a non-success HTTP status. -/
abbrev Net := String → Option String

/-- Embeds `OsRule` (minecraft/mod.rs lines 124-130). -/
structure OsRule where
  name : Option String
  arch : Option String
deriving DecidableEq, Repr

/-- Embeds `Rule` (minecraft/mod.rs lines 117-122). -/
structure Rule where
  action : String
  os : Option OsRule
deriving DecidableEq, Repr

/-- Embeds `Artifact` (minecraft/mod.rs lines 109-115). -/
structure Artifact where
  path : String
  sha1 : String
  size : Nat
  url : String
deriving DecidableEq, Repr

/-- Embeds `LibraryDownloads` (minecraft/mod.rs lines 102-107); `classifiers`
is a map from classifier key to artifact, modelled as an association list. -/
structure LibraryDownloads where
  artifact : Option Artifact
  classifiers : Option (List (String × Artifact))
deriving DecidableEq, Repr

/-- Embeds `Library` (minecraft/mod.rs lines 92-100). -/
structure Library where
  name : String
  downloads : Option LibraryDownloads
  rules : Option (List Rule)
  natives : Option (List (String × String))
deriving DecidableEq, Repr

/-- Embeds `DownloadInfo` (minecraft/mod.rs lines 83-88). -/
structure DownloadInfo where
  sha1 : String
  size : Nat
  url : String
deriving DecidableEq, Repr

/-- Embeds `AssetObject` (minecraft/mod.rs lines 149-153). -/
structure AssetObject where
  hash : String
  size : Nat
deriving DecidableEq, Repr

/-- Embeds the parts of `VersionDetails` (minecraft/mod.rs lines 54-68) used
by the acquisition pipeline and classpath assembly: the client (runtime)
download and the library list. -/
structure VersionDetails where
  id : String
  client : DownloadInfo
  libraries : List Library
deriving DecidableEq, Repr

/-- Embeds `FabricLibrary` (minecraft/mod.rs lines 177-181). -/
structure FabricLibrary where
  name : String
  url : Option String
deriving DecidableEq, Repr

/-- Embeds the parts of `FabricProfile` (minecraft/mod.rs lines 167-175)
used here: identifier, entry class and library list. -/
structure FabricProfile where
  id : String
  main_class : String
  libraries : List FabricLibrary
deriving DecidableEq, Repr

/-- Structured payload of `MinecraftError::DownloadFailed` (the source
formats a message string; the embedding keeps the distinguishing data). -/
inductive DownloadFailReason where
  | httpError (url : String)
  | hashMismatch (url expected got : String)
deriving DecidableEq, Repr

/-- Embeds the `MinecraftError` variants reachable in the embedded code
(minecraft/mod.rs lines 14-30). -/
inductive MinecraftError where
  | downloadFailed (r : DownloadFailReason)
  | versionNotFound (v : String)
deriving DecidableEq, Repr

/-- Embeds `should_use_library` (minecraft/mod.rs lines 378-396).  The loop
over the rules keeps an `Option Bool` accumulator `dominated`; a rule with no
OS constraint always matches, a rule with an OS constraint matches exactly
when its `name` field is `Some("windows")` — the OS name is hard-coded in
the source, and the `arch` field is ignored. -/
def should_use_library (lib : Library) : Bool :=
  match lib.rules with
  | some rules =>
    let dominated := rules.foldl
      (fun dominated rule =>
        let dominated_match :=
          match rule.os with
          | none => true
          | some os_rule => os_rule.name = some "windows"
        if dominated_match then some (rule.action = "allow") else dominated)
      none
    dominated.getD false
  | none => true

/-- Does a rule match the given platform name?  Written from the spec's
words for the refinement comparison in claim C6: "a rule with no OS
constraint always matches; a rule with an OS constraint matches only that
OS". -/
def ruleMatches (platform : String) (rule : Rule) : Bool :=
  match rule.os with
  | none => true
  | some os_rule => os_rule.name = some platform

/-- Modelled from the spec for the refinement comparison in claim C6:
"the action of the last rule whose OS constraint matches `platform`, or
'deny' if some rule exists but none matches, or 'allow' if no rules exist
at all". -/
def should_use_spec (platform : String) (rules : Option (List Rule)) : Bool :=
  match rules with
  | none => true
  | some rs =>
    match rs.reverse.find? (ruleMatches platform) with
    | some r => r.action = "allow"
    | none => false

/-- Splits a string at `:` separators (the source uses `name.split(':')`).
Implemented by structural recursion on the character list so that it
evaluates inside the kernel. -/
def splitColonChars : List Char → List (List Char)
  | [] => [[]]
  | c :: cs =>
    let r := splitColonChars cs
    if c = ':' then [] :: r
    else
      match r with
      | [] => [[c]]
      | g :: gs => (c :: g) :: gs

/-- String-level wrapper for `splitColonChars`. -/
def splitColon (s : String) : List String :=
  (splitColonChars s.data).map String.mk

/-- Replaces every `.` by `/` (the source uses `group.replace('.', "/")`). -/
def dotsToSlashes (s : String) : String :=
  String.mk (s.data.map (fun c => if c = '.' then '/' else c))

/-- Embeds `maven_to_path` (minecraft/mod.rs lines 518-532):
`group:artifact:version` becomes
`group/artifact/version/artifact-version.jar`, where dots in the group are
replaced by slashes; a coordinate with fewer than three parts is returned
unchanged. -/
def maven_to_path (name : String) : String :=
  match splitColon name with
  | group :: artifact :: version :: _ =>
    dotsToSlashes group ++ "/" ++ artifact ++ "/" ++ version ++ "/" ++
      artifact ++ "-" ++ version ++ ".jar"
  | _ => name

/-- Embeds the `get_artifact_key` closure of `build_classpath`
(minecraft/mod.rs lines 751-758): the version-stripped `group:artifact`
key, or the whole name when it has fewer than two `:`-separated parts. -/
def get_artifact_key (name : String) : String :=
  match splitColon name with
  | group :: artifact :: _ => group ++ ":" ++ artifact
  | _ => name

/-- The characters of the literal substring substituted by
`native_key.replace("${arch}", "64")` in the source; the braces are built
with `Char.ofNat` (codes 123 and 125). -/
def archPlaceholder : List Char :=
  ['$', Char.ofNat 123, 'a', 'r', 'c', 'h', Char.ofNat 125]

/-- Character-level substring replacement of the architecture placeholder
by `64`, by fuel-indexed recursion so it evaluates in the kernel; the fuel
is instantiated with the length of the string. -/
def replaceArchAux : Nat → List Char → List Char
  | 0, cs => cs
  | n + 1, cs =>
    if cs.take 7 = archPlaceholder then '6' :: '4' :: replaceArchAux n (cs.drop 7)
    else
      match cs with
      | [] => []
      | c :: rest => c :: replaceArchAux n rest

/-- Embeds `native_key.replace("${arch}", "64")` (minecraft/mod.rs line 337). -/
def replaceArch (s : String) : String :=
  String.mk (replaceArchAux s.data.length s.data)

/-- Embeds `download_file` (minecraft/mod.rs lines 897-912): fetch the URL
and write the bytes to the path, with no hash verification; a failed or
non-success response is `DownloadFailed`. -/
def download_file (net : Net) (url : String) (path : String) (fs : Fs) :
    Except MinecraftError Fs :=
  match net url with
  | none => .error (.downloadFailed (.httpError url))
  | some bytes => .ok (writeEntry fs path bytes)

/-- The fetch-verify-write tail of `download_file_verified`
(minecraft/mod.rs lines 932-958): fetch, verify the hash of the received
bytes, fail on mismatch, write on success. -/
def verifiedFetch (net : Net) (url : String) (path : String)
    (expected_sha1 : String) (fs : Fs) : Except MinecraftError Fs :=
  match net url with
  | none => .error (.downloadFailed (.httpError url))
  | some bytes =>
    if bytes = expected_sha1 then .ok (writeEntry fs path bytes)
    else .error (.downloadFailed (.hashMismatch url expected_sha1 bytes))

/-- Embeds `download_file_verified` (minecraft/mod.rs lines 914-959): if the
file already exists and its hash matches the expectation, return without
any network call; otherwise fetch, verify the hash of the received bytes,
fail on mismatch, and write the bytes on success.  With the
content-addressed abstraction the hash of content `c` is `c` itself. -/
def download_file_verified (net : Net) (url : String) (path : String)
    (expected_sha1 : String) (fs : Fs) : Except MinecraftError Fs :=
  match readEntry fs path with
  | some existing =>
    if existing = expected_sha1 then .ok fs
    else verifiedFetch net url path expected_sha1 fs
  | none => verifiedFetch net url path expected_sha1 fs

/-- Embeds the body of the per-library loop of `download_minecraft`
(minecraft/mod.rs lines 312-361): skip the library when its rules reject
it; otherwise download its primary artifact (hash-verified) unless the
target path already exists, then download the `windows` native classifier
artifact (hash-verified) unless that path already exists.  Any error from
a verified download aborts via `?`. -/
def downloadLibraryStep (net : Net) (lib : Library) (fs : Fs) :
    Except MinecraftError Fs :=
  if should_use_library lib then
    match lib.downloads with
    | none => .ok fs
    | some downloads =>
      let afterArtifact : Except MinecraftError Fs :=
        match downloads.artifact with
        | some artifact =>
          let lib_path := "libraries/" ++ artifact.path
          if entryExists fs lib_path then .ok fs
          else download_file_verified net artifact.url lib_path artifact.sha1 fs
        | none => .ok fs
      match afterArtifact with
      | .error e => .error e
      | .ok fs2 =>
        match lib.natives with
        | none => .ok fs2
        | some natives =>
          match readEntry natives "windows" with
          | none => .ok fs2
          | some native_key =>
            match downloads.classifiers with
            | none => .ok fs2
            | some classifiers =>
              match readEntry classifiers (replaceArch native_key) with
              | none => .ok fs2
              | some native_artifact =>
                let native_path := "libraries/" ++ native_artifact.path
                if entryExists fs2 native_path then .ok fs2
                else
                  download_file_verified net native_artifact.url native_path
                    native_artifact.sha1 fs2
  else .ok fs

/-- Embeds the library loop of `download_minecraft` (minecraft/mod.rs lines
310-361): the libraries are processed in order and the first error aborts
the whole download. -/
def download_minecraft_libraries (net : Net) : List Library → Fs →
    Except MinecraftError Fs
  | [], fs => .ok fs
  | lib :: rest, fs =>
    match downloadLibraryStep net lib fs with
    | .error e => .error e
    | .ok fs2 => download_minecraft_libraries net rest fs2

/-- The hash-sharded content-addressed path of an asset object
(minecraft/mod.rs lines 428-430). -/
def assetObjectPath (o : AssetObject) : String :=
  "assets/objects/" ++ o.hash.take 2 ++ "/" ++ o.hash

/-- The resource URL of an asset object (minecraft/mod.rs line 434). -/
def assetObjectUrl (o : AssetObject) : String :=
  "https://resources.download.minecraft.net" ++ "/" ++ o.hash.take 2 ++ "/" ++ o.hash

/-- Embeds the object loop of `download_assets` (minecraft/mod.rs lines
424-440): each asset object is skipped when a file already exists at its
hash-sharded path, and otherwise downloaded with `download_file` — without
hash verification. -/
def download_assets_objects (net : Net) : List AssetObject → Fs →
    Except MinecraftError Fs
  | [], fs => .ok fs
  | o :: rest, fs =>
    if entryExists fs (assetObjectPath o) then download_assets_objects net rest fs
    else
      match download_file net (assetObjectUrl o) (assetObjectPath o) fs with
      | .error e => .error e
      | .ok fs2 => download_assets_objects net rest fs2

/-- The URL a Fabric library is fetched from (minecraft/mod.rs lines
503-504): the library's own base URL, defaulting to the Fabric maven, with
the maven-derived relative path appended. -/
def fabricLibUrl (lib : FabricLibrary) : String :=
  lib.url.getD "https://maven.fabricmc.net/" ++ maven_to_path lib.name

/-- The install path of a Fabric library (minecraft/mod.rs lines 495-496). -/
def fabricLibPath (lib : FabricLibrary) : String :=
  "libraries/" ++ maven_to_path lib.name

/-- Embeds the library loop of `download_fabric` (minecraft/mod.rs lines
491-510): each library whose path does not yet exist is downloaded with
`download_file`; a download error is logged with `tracing::warn!` and
otherwise IGNORED — the loop continues, so the function never fails and is
total in the file-system state. -/
def download_fabric_libraries (net : Net) : List FabricLibrary → Fs → Fs
  | [], fs => fs
  | lib :: rest, fs =>
    let fs2 :=
      if entryExists fs (fabricLibPath lib) then fs
      else
        match download_file net (fabricLibUrl lib) (fabricLibPath lib) fs with
        | .error _ => fs
        | .ok fs3 => fs3
    download_fabric_libraries net rest fs2

/-- The path of the runtime (client) jar of a version
(minecraft/mod.rs lines 761-765). -/
def clientJarPath (mc_version : String) : String :=
  "versions/" ++ mc_version ++ "/" ++ mc_version ++ ".jar"

/-- Provenance tag for an instrumented classpath entry. -/
inductive CpOrigin where
  | client
  | fabric
  | vanilla
deriving DecidableEq, Repr

/-- An instrumented classpath entry: where it came from, the maven
coordinate it was built from (empty for the runtime jar) and the path that
is pushed on the classpath. -/
structure CpEntry where
  origin : CpOrigin
  name : String
  path : String
deriving DecidableEq, Repr

/-- Fabric phase of `build_classpath` (minecraft/mod.rs lines 770-791),
instrumented with provenance: walk the loader libraries in order; insert
each entry's version-stripped key into the seen-set, and push its path when
the key was not seen before AND the file exists on disk.  Returns the
entries and the final seen-set. -/
def cpFabricT (fs : Fs) : List FabricLibrary → List String →
    List CpEntry × List String
  | [], seen => ([], seen)
  | lib :: rest, seen =>
    let key := get_artifact_key lib.name
    if key ∈ seen then cpFabricT fs rest seen
    else
      let lib_path := "libraries/" ++ maven_to_path lib.name
      let r := cpFabricT fs rest (seen ++ [key])
      (if entryExists fs lib_path then ⟨.fabric, lib.name, lib_path⟩ :: r.1 else r.1,
       r.2)

/-- Vanilla phase of `build_classpath` (minecraft/mod.rs lines 793-811),
instrumented with provenance: a library rejected by its rules is skipped;
otherwise its key is inserted into the seen-set, and when the key is new
and the library has a primary artifact whose file exists, the path is
pushed. -/
def cpVanillaT (fs : Fs) : List Library → List String →
    List CpEntry × List String
  | [], seen => ([], seen)
  | lib :: rest, seen =>
    if should_use_library lib then
      let key := get_artifact_key lib.name
      if key ∈ seen then cpVanillaT fs rest seen
      else
        let r := cpVanillaT fs rest (seen ++ [key])
        match lib.downloads with
        | some downloads =>
          match downloads.artifact with
          | some artifact =>
            let lib_path := "libraries/" ++ artifact.path
            (if entryExists fs lib_path then
               ⟨.vanilla, lib.name, lib_path⟩ :: r.1
             else r.1, r.2)
          | none => r
        | none => r
    else cpVanillaT fs rest seen

/-- Instrumented `build_classpath` (minecraft/mod.rs lines 741-814): the
runtime jar when present, then the Fabric-profile entries (when the profile
file exists — modelled by the `Option`), then the vanilla entries starting
from the Fabric phase's seen-set. -/
def build_classpath_tagged (fs : Fs) (mc_version : String)
    (fabricProfile : Option FabricProfile) (details : VersionDetails) :
    List CpEntry :=
  let client :=
    if entryExists fs (clientJarPath mc_version) then
      [(⟨.client, "", clientJarPath mc_version⟩ : CpEntry)]
    else []
  let fabricPart :=
    match fabricProfile with
    | some fp => cpFabricT fs fp.libraries []
    | none => ([], [])
  let vanillaPart := cpVanillaT fs details.libraries fabricPart.2
  client ++ fabricPart.1 ++ vanillaPart.1

/-- Fabric phase of `build_classpath` exactly as the source computes it
(minecraft/mod.rs lines 770-791): the pushed paths and the seen-set. -/
def cpFabric (fs : Fs) : List FabricLibrary → List String →
    List String × List String
  | [], seen => ([], seen)
  | lib :: rest, seen =>
    let key := get_artifact_key lib.name
    if key ∈ seen then cpFabric fs rest seen
    else
      let lib_path := "libraries/" ++ maven_to_path lib.name
      let r := cpFabric fs rest (seen ++ [key])
      (if entryExists fs lib_path then lib_path :: r.1 else r.1, r.2)

/-- Vanilla phase of `build_classpath` exactly as the source computes it
(minecraft/mod.rs lines 793-811): the pushed paths and the seen-set. -/
def cpVanilla (fs : Fs) : List Library → List String →
    List String × List String
  | [], seen => ([], seen)
  | lib :: rest, seen =>
    if should_use_library lib then
      let key := get_artifact_key lib.name
      if key ∈ seen then cpVanilla fs rest seen
      else
        let r := cpVanilla fs rest (seen ++ [key])
        match lib.downloads with
        | some downloads =>
          match downloads.artifact with
          | some artifact =>
            let lib_path := "libraries/" ++ artifact.path
            (if entryExists fs lib_path then lib_path :: r.1 else r.1, r.2)
          | none => r
        | none => r
    else cpVanilla fs rest seen

/-- Embeds `build_classpath` (minecraft/mod.rs lines 741-814) exactly as the
source computes it: the runtime jar when present, then the Fabric library
paths (when the profile file exists, modelled by the `Option`), then the
vanilla library paths starting from the Fabric phase's seen-set. -/
def build_classpath (fs : Fs) (mc_version : String)
    (fabricProfile : Option FabricProfile) (details : VersionDetails) :
    List String :=
  let client :=
    if entryExists fs (clientJarPath mc_version) then [clientJarPath mc_version]
    else []
  let fabricPart :=
    match fabricProfile with
    | some fp => cpFabric fs fp.libraries []
    | none => ([], [])
  let vanillaPart := cpVanilla fs details.libraries fabricPart.2
  client ++ fabricPart.1 ++ vanillaPart.1

end Mc

namespace DepResolver

/-! Shallow embedding of `src/launcher/src-tauri/src/ipc/dependency_resolver.rs`. -/

open FsModel

/-- Embeds `FabricModJson` (dependency_resolver.rs lines 13-20): the
metadata document inside a mod archive.  The `depends` and `recommends`
maps are association lists of `(dependency id, version requirement)`. -/
structure FabricModJson where
  id : String
  version : String
  depends : Option (List (String × String))
  recommends : Option (List (String × String))
deriving DecidableEq, Repr

/-- A jar file in the mods directory: its byte length and the result of
`parse_mod_metadata` on it (`none` when the archive has no parseable
`fabric.mod.json`). -/
structure JarBytes where
  len : Nat
  meta : Option FabricModJson
deriving DecidableEq, Repr

/-- The mods directory: file name to jar content, every entry a `.jar`. -/
abbrev Dir := List (String × JarBytes)

/-- The mods-directory path as seen by the functions: `none` models a path
that does not exist on the file system (so `Path::exists` is false and
`fs::read_dir` fails), `some d` an existing directory with entries `d`. -/
abbrev ModsPath := Option Dir

/-- Embeds `ModDependency` (dependency_resolver.rs lines 7-11). -/
structure ModDependency where
  mod_id : String
  version_requirement : Option String
deriving DecidableEq, Repr

/-- Embeds `DependencyResolutionResult` (dependency_resolver.rs lines 22-26). -/
structure DependencyResolutionResult where
  missing_dependencies : List ModDependency
  installed_mods : List String
deriving DecidableEq, Repr

/-- Insert-if-absent, modelling `HashSet::insert`; the list keeps first
insertion order. -/
def setInsert {α : Type} [DecidableEq α] (s : List α) (a : α) : List α :=
  if a ∈ s then s else s ++ [a]

/-- The set of installed mod identifiers of an existing directory: for each
jar whose metadata parses, its declared `id` (dependency_resolver.rs lines
56-65). -/
def installedIdsOf (d : Dir) : List String :=
  d.foldl
    (fun acc e =>
      match e.2.meta with
      | some metadata => setInsert acc metadata.id
      | none => acc)
    []

/-- Embeds `get_installed_mod_ids` (dependency_resolver.rs lines 46-68): a
nonexistent directory yields `Ok` with the empty set; an archive whose
metadata cannot be parsed is silently excluded. -/
def get_installed_mod_ids : ModsPath → Except String (List String)
  | none => .ok []
  | some d => .ok (installedIdsOf d)

/-- The three runtime-provided pseudo-dependency identifiers skipped by the
resolver (dependency_resolver.rs line 89). -/
def isPseudoDependency (dep_id : String) : Bool :=
  dep_id = "minecraft" || dep_id = "java" || dep_id = "fabricloader"

/-- One required-dependency declaration `(id, version requirement)` is
added to the collected set unless its id is a pseudo-dependency
(dependency_resolver.rs lines 87-97). -/
def depInsertStep (acc : List ModDependency) (p : String × String) : List ModDependency :=
  if isPseudoDependency p.1 then acc else setInsert acc ⟨p.1, some p.2⟩

/-- All required-dependency declarations of one jar are folded into the
collected set; unparseable metadata or an absent `depends` map contributes
nothing (dependency_resolver.rs lines 83-100). -/
def jarDepsStep (acc : List ModDependency) (e : String × JarBytes) : List ModDependency :=
  match e.2.meta with
  | some metadata =>
    match metadata.depends with
    | some depends => depends.foldl depInsertStep acc
    | none => acc
  | none => acc

/-- The union of the required-dependency declarations of all parseable jars
of a directory, with the three pseudo-dependencies skipped
(dependency_resolver.rs lines 79-101). -/
def allRequiredDeps (d : Dir) : List ModDependency :=
  d.foldl jarDepsStep []

/-- The missing-dependency set of an existing directory: the required set
minus the installed identifiers (dependency_resolver.rs lines 104-107). -/
def missingOf (d : Dir) : List ModDependency :=
  (allRequiredDeps d).filter (fun dep => dep.mod_id ∉ installedIdsOf d)

/-- Embeds `resolve_dependencies` (dependency_resolver.rs lines 71-113):
first `get_installed_mod_ids` (which succeeds with the empty set even for a
nonexistent path), then a fresh `fs::read_dir` scan of the same path —
which FAILS when the path does not exist; the missing set is the required
set minus the installed identifiers. -/
def resolve_dependencies (path : ModsPath) : Except String DependencyResolutionResult :=
  match get_installed_mod_ids path with
  | .error e => .error e
  | .ok installed_ids =>
    match path with
    | none => .error "Failed to read mods directory"
    | some d => .ok ⟨missingOf d, installed_ids⟩

/-- One distributable file of a registry version (`files` array entries in
`install_dependency`, dependency_resolver.rs lines 185-201). -/
structure RegistryFile where
  primary : Bool
  url : String
  filename : String
deriving DecidableEq, Repr

/-- One registry version (`versions` array entries). -/
structure RegistryVersion where
  files : List RegistryFile
deriving DecidableEq, Repr

/-- The remote registry as `install_dependency` consumes it: project lookup
by mod id (yielding the slug, `none` for a non-success status), version
list by slug, and download by URL (yielding the jar bytes, `none` for a
failed transfer). -/
structure Registry where
  project : String → Option String
  versions : String → List RegistryVersion
  download : String → Option JarBytes

/-- Embeds `install_dependency` (dependency_resolver.rs lines 116-224):
resolve the project, take the FIRST version, pick the first file marked
primary (else the first file), download it, and write it into the mods
directory under its registry file name.  NOTE: the downloaded bytes are
written without any minimum-size check. -/
def install_dependency (reg : Registry) (mod_id : String) (d : Dir) :
    Except String Dir :=
  match reg.project mod_id with
  | none => .error ("Mod not found: " ++ mod_id)
  | some slug =>
    match reg.versions slug with
    | [] => .error ("No compatible version found for " ++ mod_id)
    | latest :: _ =>
      match (latest.files.find? (fun f => f.primary)).orElse (fun _ => latest.files.head?) with
      | none => .error "No downloadable file found"
      | some primary_file =>
        match reg.download primary_file.url with
        | none => .error "Failed to download"
        | some bytes => .ok (writeEntry d primary_file.filename bytes)

/-- One pass of `resolve_and_install_dependencies` (dependency_resolver.rs
lines 243-260): attempt to install every missing dependency in order,
collecting the identifiers whose installation succeeded and accumulating
the directory state; a failed installation is logged and skipped. -/
def installPass (reg : Registry) (deps : List ModDependency) (d : Dir) :
    List String × Dir :=
  deps.foldl
    (fun acc dep =>
      match install_dependency reg dep.mod_id acc.2 with
      | .ok d2 => (acc.1 ++ [dep.mod_id], d2)
      | .error _ => acc)
    ([], d)

/-- Embeds `resolve_and_install_dependencies` (dependency_resolver.rs lines
227-274), fuel-indexed: `none` models that the recursion has not terminated
within the given number of passes.  A pass re-resolves, returns `Ok []`
when nothing is missing or nothing could be installed, and otherwise
recurses on the updated directory, prepending this pass's installs. -/
def resolve_and_install_dependencies (reg : Registry) :
    Nat → Dir → Option (Except String (List String) × Dir)
  | 0, _ => none
  | fuel + 1, d =>
    match resolve_dependencies (some d) with
    | .error e => some (.error e, d)
    | .ok resolution =>
      if resolution.missing_dependencies.isEmpty then some (.ok [], d)
      else
        let p := installPass reg resolution.missing_dependencies d
        if p.1.isEmpty then some (.ok p.1, p.2)
        else
          match resolve_and_install_dependencies reg fuel p.2 with
          | none => none
          | some (.error e, d2) => some (.error e, d2)
          | some (.ok additional, d2) => some (.ok (p.1 ++ additional), d2)

end DepResolver

/-- Decidable equality for `Except`, used to evaluate concrete runs of the
embedded fallible functions. -/
instance {ε α : Type} [DecidableEq ε] [DecidableEq α] : DecidableEq (Except ε α)
  | .error a, .error b =>
    if h : a = b then .isTrue (by rw [h])
    else .isFalse (by intro hc; cases hc; exact h rfl)
  | .error _, .ok _ => .isFalse (by intro hc; cases hc)
  | .ok _, .error _ => .isFalse (by intro hc; cases hc)
  | .ok a, .ok b =>
    if h : a = b then .isTrue (by rw [h])
    else .isFalse (by intro hc; cases hc; exact h rfl)

namespace Auth

/-! Shallow embedding of the device-code polling loop of
`src/launcher/src-tauri/src/auth/mod.rs` (`poll_and_authenticate`, lines
269-354).  The loop body classifies each token-endpoint response body by
attempting, in source order: parse as a JSON `TokenResponse` (which
requires an `access_token` field), parse as a JSON error object, parse as a
URL-encoded form and look for an `error` key, then for an `access_token`
key.  A response body is embedded as the branch of that classification it
lands in.  On success the source proceeds to `complete_authentication`
(the three further token hops), which is outside the loop and not part of
claim C8; the embedding stops at the issued provider token. -/

/-- Embeds the fields of `TokenResponse` (auth/mod.rs lines 79-88). -/
structure TokenResponse where
  access_token : String
  refresh_token : Option String
  expires_in : Option Nat
  user_id : Option String
deriving DecidableEq, Repr

/-- Embeds the `AuthError` variants reachable in the polling loop
(auth/mod.rs lines 15-29). -/
inductive AuthError where
  | parseError (msg : String)
  | authFailed (msg : String)
  | timeout
  | cancelled
deriving DecidableEq, Repr

/-- Classification of one token-endpoint response body, in the order the
source attempts the parses. -/
inductive PollBody where
  /-- Parses as a JSON `TokenResponse` (has `access_token`). -/
  | jsonToken (tok : TokenResponse)
  /-- Fails the `TokenResponse` parse but parses as a JSON `{error}` object. -/
  | jsonError (e : String)
  /-- Not JSON; form-encoded with an `error` key. -/
  | formError (e : String)
  /-- Not JSON; form-encoded with no `error` key but an `access_token` key. -/
  | formToken (tok : TokenResponse)
  /-- Neither JSON nor a form body with a recognized key. -/
  | unparseable (text : String)
deriving DecidableEq, Repr

/-- Outcome of one loop iteration: continue polling (with the extra wait in
seconds the iteration added beyond the base interval), or terminate. -/
inductive PollStep where
  | continuePolling (extraWait : Nat)
  | terminate (r : Except AuthError TokenResponse)
deriving DecidableEq, Repr

/-- The provider-error dispatch shared by the JSON and the form branch
(auth/mod.rs lines 301-314 and 322-334): `authorization_pending` continues
with no backoff change, `slow_down` sleeps 5 extra seconds and continues,
`expired_token` is `Timeout`, `authorization_declined` is `Cancelled`, and
anything else is `AuthFailed`. -/
def classifyProviderError (e : String) : PollStep :=
  if e = "authorization_pending" then .continuePolling 0
  else if e = "slow_down" then .continuePolling 5
  else if e = "expired_token" then .terminate (.error .timeout)
  else if e = "authorization_declined" then .terminate (.error .cancelled)
  else .terminate (.error (.authFailed e))

/-- One iteration of the polling loop body (auth/mod.rs lines 283-352). -/
def pollStep : PollBody → PollStep
  | .jsonToken tok => .terminate (.ok tok)
  | .jsonError e => classifyProviderError e
  | .formError e => classifyProviderError e
  | .formToken tok => .terminate (.ok tok)
  | .unparseable text =>
    .terminate (.error (.parseError ("Unexpected response (neither JSON nor form): " ++ text)))

/-- Embeds `poll_and_authenticate` over a finite prefix of the provider's
response sequence.  Each iteration first sleeps `interval` seconds
(auth/mod.rs line 281), then processes one response.  The result is `none`
when every supplied response was consumed and the loop is STILL polling
(the loop has not terminated), and `some (totalWaitSeconds, outcome)` when
it terminated. -/
def poll_and_authenticate (interval : Nat) :
    List PollBody → Option (Nat × Except AuthError TokenResponse)
  | [] => none
  | b :: rest =>
    match pollStep b with
    | .continuePolling extra =>
      (poll_and_authenticate interval rest).map
        (fun p => (interval + extra + p.1, p.2))
    | .terminate r => some (interval, r)

end Auth

namespace Fixtures

/-! Concrete inputs used by the counterexample and witness theorems. -/

/-- A base-version library with no rules (the "unrestricted" library of the
spec's end-to-end scenario). -/
def libA : Mc.Library :=
  ⟨"com.a:liba:1.0",
   some ⟨some ⟨"com/a/liba/1.0/liba-1.0.jar", "hA", 10, "uA"⟩, none⟩,
   none, none⟩

/-- A base-version library restricted by rule to Windows only. -/
def libB : Mc.Library :=
  ⟨"com.b:libb:1.0",
   some ⟨some ⟨"com/b/libb/1.0/libb-1.0.jar", "hB", 10, "uB"⟩, none⟩,
   some [⟨"allow", some ⟨some "windows", none⟩⟩], none⟩

/-- A network that serves both libraries' artifacts with correct content
and the runtime jar. -/
def netAB : Mc.Net := fun u =>
  if u = "uA" then some "hA"
  else if u = "uB" then some "hB"
  else if u = "uC" then some "hC"
  else none

/-- A network whose copy of `libA`'s artifact is corrupted (its content
does not match the declared hash `hA`) but which serves `libB` correctly. -/
def netBadA : Mc.Net := fun u =>
  if u = "uA" then some "BAD"
  else if u = "uB" then some "hB"
  else none

/-- The version detail of the end-to-end scenario: one unrestricted
library and one Windows-only library. -/
def detailsAB : Mc.VersionDetails := ⟨"1.20", ⟨"hC", 5, "uC"⟩, [libA, libB]⟩

/-- A library restricted by rule to Linux only, used against the hard-coded
Windows matching. -/
def libLinuxOnly : Mc.Library :=
  ⟨"com.l:libl:1.0",
   some ⟨some ⟨"com/l/libl/1.0/libl-1.0.jar", "hL", 10, "uL"⟩, none⟩,
   some [⟨"allow", some ⟨some "linux", none⟩⟩], none⟩

/-- An install directory holding `libA`'s artifact with WRONG content
(content `"BAD"` differs from the declared hash `hA`). -/
def fsWrongA : Mc.Fs := [("libraries/com/a/liba/1.0/liba-1.0.jar", "BAD")]

/-- An asset object and a store holding its sharded path with wrong
content. -/
def assetObj : Mc.AssetObject := ⟨"abcdef", 7⟩

/-- A store holding `assetObj`'s content-addressed path with content that
is not its hash. -/
def fsWrongAsset : Mc.Fs := [("assets/objects/ab/abcdef", "JUNK")]

/-- A Fabric loader library whose download will fail. -/
def fabLibFail : Mc.FabricLibrary := ⟨"net.f:libf:2.0", none⟩

/-- A Fabric loader library whose download succeeds. -/
def fabLibOk : Mc.FabricLibrary := ⟨"net.g:libg:2.0", none⟩

/-- A network that fails `fabLibFail`'s URL and serves `fabLibOk`. -/
def netFab : Mc.Net := fun u =>
  if u = "https://maven.fabricmc.net/" ++ Mc.maven_to_path fabLibOk.name then some "hG"
  else none

/-- A mods directory with one mod `alpha` requiring `foo`. -/
def dirAlpha : DepResolver.Dir :=
  [("alpha.jar", ⟨4000, some ⟨"alpha", "1.0", some [("foo", "*")], none⟩⟩)]

/-- The directory after the registry `regMismatch` "successfully" installs
`foo`: the delivered archive `bar.jar` declares the id `bar`, not `foo`. -/
def dirAlphaBar : DepResolver.Dir :=
  dirAlpha ++ [("bar.jar", ⟨5000, some ⟨"bar", "1.0", some [], none⟩⟩)]

/-- A registry that resolves `foo` successfully but delivers an archive
declaring the unrelated id `bar` — a successful install that never
satisfies the dependency it was requested for. -/
def regMismatch : DepResolver.Registry :=
  ⟨fun i => if i = "foo" then some "foo-slug" else none,
   fun s => if s = "foo-slug" then [⟨[⟨true, "u1", "bar.jar"⟩]⟩] else [],
   fun u => if u = "u1" then some ⟨5000, some ⟨"bar", "1.0", some [], none⟩⟩ else none⟩

/-- A registry on which every project lookup fails. -/
def regNone : DepResolver.Registry :=
  ⟨fun _ => none, fun _ => [], fun _ => none⟩

/-- A registry whose primary distributable for `tiny` is a 500-byte file. -/
def regTiny : DepResolver.Registry :=
  ⟨fun i => if i = "tiny" then some "tiny-slug" else none,
   fun s => if s = "tiny-slug" then [⟨[⟨true, "u9", "tiny.jar"⟩]⟩] else [],
   fun u => if u = "u9" then some ⟨500, some ⟨"tiny", "1.0", some [], none⟩⟩ else none⟩

/-- A mods directory declaring pseudo-dependencies and a real missing one. -/
def dirPseudo : DepResolver.Dir :=
  [("m.jar", ⟨2000, some ⟨"m", "1.0",
     some [("minecraft", "1.20"), ("java", ">=17"), ("fabricloader", "*"), ("foo", "*")],
     none⟩⟩)]

/-- A network serving `assetObj`'s resource URL with content that does NOT
match the object's hash. -/
def netAssetJunk : Mc.Net := fun u =>
  if u = Mc.assetObjectUrl assetObj then some "JUNK" else none

/-- The install directory after acquiring the scenario of claim C7: the
runtime jar and both libraries present with correct content. -/
def fsABClient : Mc.Fs :=
  [("versions/1.20/1.20.jar", "hC"),
   ("libraries/com/a/liba/1.0/liba-1.0.jar", "hA"),
   ("libraries/com/b/libb/1.0/libb-1.0.jar", "hB")]

/-- A loader profile declaring version 2.0 of the artifact `com.x:dup`. -/
def fpDup : Mc.FabricProfile :=
  ⟨"fp", "net.fabricmc.loader.Main", [⟨"com.x:dup:2.0", none⟩]⟩

/-- A base-runtime library declaring version 1.0 of the same `com.x:dup`
artifact key as the loader profile. -/
def vlibDup : Mc.Library :=
  ⟨"com.x:dup:1.0",
   some ⟨some ⟨"com/x/dup/1.0/dup-1.0.jar", "hD", 5, "uD"⟩, none⟩,
   none, none⟩

/-- A base-runtime library with a key the loader does not declare. -/
def vlibOther : Mc.Library :=
  ⟨"org.z:other:1.0",
   some ⟨some ⟨"org/z/other/1.0/other-1.0.jar", "hZ", 5, "uZ"⟩, none⟩,
   none, none⟩

/-- Version details listing both base-runtime libraries. -/
def dtDup : Mc.VersionDetails := ⟨"1.20", ⟨"hC", 5, "uC"⟩, [vlibDup, vlibOther]⟩

/-- A store holding the runtime jar, the loader's `dup-2.0`, the
base-runtime `dup-1.0` and `other-1.0` — both versions of the duplicate
artifact exist on disk. -/
def fsDup : Mc.Fs :=
  [("versions/1.20/1.20.jar", "hC"),
   ("libraries/com/x/dup/2.0/dup-2.0.jar", "hD2"),
   ("libraries/com/x/dup/1.0/dup-1.0.jar", "hD"),
   ("libraries/org/z/other/1.0/other-1.0.jar", "hZ")]

end Fixtures

namespace FsModel

/-! Store lemmas. -/

theorem readEntry_writeEntry_self {α : Type} (fs : List (String × α)) (p : String) (c : α) :
    readEntry (writeEntry fs p c) p = some c := by
  induction fs with
  | nil => simp [writeEntry, readEntry]
  | cons e rest ih =>
    by_cases h : e.1 = p
    · simp [writeEntry, readEntry, h]
    · simp [writeEntry, readEntry, h, ih]

theorem readEntry_writeEntry_other {α : Type} (fs : List (String × α)) (p q : String) (c : α)
    (hpq : p ≠ q) : readEntry (writeEntry fs p c) q = readEntry fs q := by
  induction fs with
  | nil => simp [writeEntry, readEntry, hpq]
  | cons e rest ih =>
    by_cases h : e.1 = p
    · subst h
      simp [writeEntry, readEntry, hpq, Ne.symm hpq]
    · simp [writeEntry, readEntry, h, ih]

theorem entryExists_writeEntry_self {α : Type} (fs : List (String × α)) (p : String) (c : α) :
    entryExists (writeEntry fs p c) p = true := by
  simp [entryExists, readEntry_writeEntry_self]

theorem entryExists_writeEntry_mono {α : Type} (fs : List (String × α)) (p q : String) (c : α)
    (h : entryExists fs q = true) : entryExists (writeEntry fs p c) q = true := by
  by_cases hpq : p = q
  · subst hpq; exact entryExists_writeEntry_self fs p c
  · simpa [entryExists, readEntry_writeEntry_other fs p q c hpq] using h

/-- A fold preserves any invariant its step function preserves. -/
theorem foldl_invariant {β σ : Type} (P : σ → Prop) (f : σ → β → σ)
    (hf : ∀ s b, P s → P (f s b)) :
    ∀ (l : List β) (s : σ), P s → P (l.foldl f s)
  | [], _, h => h
  | b :: l, s, h => foldl_invariant P f hf l (f s b) (hf s b h)

end FsModel

namespace DepResolver

/-! Lemmas about the dependency resolver. -/

theorem mem_setInsert {α : Type} [DecidableEq α] {s : List α} {a b : α}
    (h : a ∈ setInsert s b) : a ∈ s ∨ a = b := by
  by_cases hb : b ∈ s
  · exact Or.inl (by simpa [setInsert, hb] using h)
  · simpa [setInsert, hb] using h

/-- `depInsertStep` preserves the invariant that every collected
dependency has a non-pseudo identifier. -/
theorem depInsertStep_not_pseudo (acc : List ModDependency) (p : String × String)
    (hacc : ∀ dep ∈ acc, isPseudoDependency dep.mod_id = false) :
    ∀ dep ∈ depInsertStep acc p, isPseudoDependency dep.mod_id = false := by
  by_cases hp : isPseudoDependency p.1 = true
  · simpa [depInsertStep, hp] using hacc
  · simp only [depInsertStep, hp, if_false, Bool.false_eq_true]
    intro dep hdep
    rcases mem_setInsert hdep with hmem | rfl
    · exact hacc dep hmem
    · simpa using hp

/-- `jarDepsStep` preserves the non-pseudo invariant. -/
theorem jarDepsStep_not_pseudo (acc : List ModDependency) (e : String × JarBytes)
    (hacc : ∀ dep ∈ acc, isPseudoDependency dep.mod_id = false) :
    ∀ dep ∈ jarDepsStep acc e, isPseudoDependency dep.mod_id = false := by
  cases hm : e.2.meta with
  | none => simpa only [jarDepsStep, hm] using hacc
  | some metadata =>
    cases hd : metadata.depends with
    | none => simpa only [jarDepsStep, hm, hd] using hacc
    | some depends =>
      simpa only [jarDepsStep, hm, hd] using
        FsModel.foldl_invariant _ depInsertStep depInsertStep_not_pseudo depends acc hacc

/-- Every dependency collected by `allRequiredDeps` survived the
pseudo-dependency filter. -/
theorem allRequiredDeps_not_pseudo (d : Dir) :
    ∀ dep ∈ allRequiredDeps d, isPseudoDependency dep.mod_id = false := by
  unfold allRequiredDeps
  exact FsModel.foldl_invariant _ jarDepsStep jarDepsStep_not_pseudo d []
    (by intro dep hdep; simp at hdep)

end DepResolver

/-- Claim C9: for every mods-directory contents, the missing-dependency set
returned by `resolve_dependencies` never contains any of the three
pseudo-dependency identifiers (`minecraft`, `java`, `fabricloader`),
regardless of what installed archives declare, and never contains an
identifier already present in the installed set. -/
theorem claim_C9 (path : DepResolver.ModsPath)
    (r : DepResolver.DependencyResolutionResult)
    (h : DepResolver.resolve_dependencies path = .ok r)
    (dep : DepResolver.ModDependency) (hdep : dep ∈ r.missing_dependencies) :
    dep.mod_id ≠ "minecraft" ∧ dep.mod_id ≠ "java" ∧ dep.mod_id ≠ "fabricloader" ∧
      dep.mod_id ∉ r.installed_mods := by
  match path with
  | none => simp [DepResolver.resolve_dependencies, DepResolver.get_installed_mod_ids] at h
  | some d =>
    simp only [DepResolver.resolve_dependencies, DepResolver.get_installed_mod_ids,
      Except.ok.injEq] at h
    subst h
    simp only [DepResolver.missingOf, List.mem_filter, decide_eq_true_eq] at hdep
    have hpseudo := DepResolver.allRequiredDeps_not_pseudo d dep hdep.1
    simp only [DepResolver.isPseudoDependency, Bool.or_eq_false_iff, decide_eq_false_iff_not]
      at hpseudo
    exact ⟨hpseudo.1.1, hpseudo.1.2, hpseudo.2, hdep.2⟩

/-- Claim C9 witness: a directory whose single archive declares the three
pseudo-dependencies and the real dependency `foo`; the only missing
dependency is `foo`, which is neither pseudo nor installed. -/
theorem claim_C9_witness :
    (⟨"foo", some "*"⟩ : DepResolver.ModDependency).mod_id ≠ "minecraft" ∧
      (⟨"foo", some "*"⟩ : DepResolver.ModDependency).mod_id ≠ "java" ∧
      (⟨"foo", some "*"⟩ : DepResolver.ModDependency).mod_id ≠ "fabricloader" ∧
      (⟨"foo", some "*"⟩ : DepResolver.ModDependency).mod_id ∉ ["m"] :=
  claim_C9 (some Fixtures.dirPseudo) ⟨[⟨"foo", some "*"⟩], ["m"]⟩ (by decide)
    ⟨"foo", some "*"⟩ (by decide)

/-- Claim C10: `get_installed_mod_ids` on a nonexistent path returns `Ok`
with the empty set, while `resolve_dependencies` on the same nonexistent
path fails (its own directory scan errors), so the two entry points
disagree on that edge case; the empty/empty result does hold for an
existing directory with zero archives. -/
theorem claim_C10 :
    DepResolver.get_installed_mod_ids none = .ok [] ∧
      DepResolver.resolve_dependencies none = .error "Failed to read mods directory" ∧
      DepResolver.resolve_dependencies (some []) =
        .ok ⟨[], []⟩ := by
  decide

/-- Claim C4: contrary to the claim, `install_dependency` applies NO
minimum-byte-size sanity check: a 500-byte download is accepted, the
function returns `Ok`, and the 500-byte file IS written into the mods
directory (every other download helper in the code base rejects downloads
below 1000 bytes as corrupt). -/
theorem claim_C4 :
    DepResolver.install_dependency Fixtures.regTiny "tiny" [] =
      .ok [("tiny.jar", ⟨500, some ⟨"tiny", "1.0", some [], none⟩⟩)] := by
  decide

namespace Auth

/-! Lemmas about the device-code polling loop. -/

theorem poll_replicate_json_pending (interval n : Nat) :
    poll_and_authenticate interval
      (List.replicate n (.jsonError "authorization_pending")) = none := by
  induction n with
  | zero => rfl
  | succ k ih =>
    rw [List.replicate_succ]
    show (poll_and_authenticate interval
      (List.replicate k (.jsonError "authorization_pending"))).map _ = none
    rw [ih]
    rfl

theorem poll_replicate_form_pending (interval n : Nat) :
    poll_and_authenticate interval
      (List.replicate n (.formError "authorization_pending")) = none := by
  induction n with
  | zero => rfl
  | succ k ih =>
    rw [List.replicate_succ]
    show (poll_and_authenticate interval
      (List.replicate k (.formError "authorization_pending"))).map _ = none
    rw [ih]
    rfl

end Auth

/-- Claim C8: the device-code polling loop, for every response sequence:
`authorization_pending` continues polling without terminating (arbitrarily
many times), `slow_down` continues after one extra 5-second wait increment,
`expired_token` terminates with `Timeout`, `authorization_declined`
terminates with `Cancelled`, and any other provider-reported error
terminates with `AuthFailed` — identically for JSON and form-encoded
responses. -/
theorem claim_C8 (interval n : Nat) (rest : List Auth.PollBody) (e : String)
    (he : e ∉ ["authorization_pending", "slow_down", "expired_token",
      "authorization_declined"]) :
    (Auth.poll_and_authenticate interval
        (List.replicate n (.jsonError "authorization_pending")) = none) ∧
    (Auth.poll_and_authenticate interval
        (List.replicate n (.formError "authorization_pending")) = none) ∧
    (Auth.poll_and_authenticate interval (.jsonError "authorization_pending" :: rest) =
      (Auth.poll_and_authenticate interval rest).map (fun p => (interval + 0 + p.1, p.2))) ∧
    (Auth.poll_and_authenticate interval (.formError "authorization_pending" :: rest) =
      (Auth.poll_and_authenticate interval rest).map (fun p => (interval + 0 + p.1, p.2))) ∧
    (Auth.poll_and_authenticate interval (.jsonError "slow_down" :: rest) =
      (Auth.poll_and_authenticate interval rest).map (fun p => (interval + 5 + p.1, p.2))) ∧
    (Auth.poll_and_authenticate interval (.formError "slow_down" :: rest) =
      (Auth.poll_and_authenticate interval rest).map (fun p => (interval + 5 + p.1, p.2))) ∧
    (Auth.poll_and_authenticate interval (.jsonError "expired_token" :: rest) =
      some (interval, .error .timeout)) ∧
    (Auth.poll_and_authenticate interval (.formError "expired_token" :: rest) =
      some (interval, .error .timeout)) ∧
    (Auth.poll_and_authenticate interval (.jsonError "authorization_declined" :: rest) =
      some (interval, .error .cancelled)) ∧
    (Auth.poll_and_authenticate interval (.formError "authorization_declined" :: rest) =
      some (interval, .error .cancelled)) ∧
    (Auth.poll_and_authenticate interval (.jsonError e :: rest) =
      some (interval, .error (.authFailed e))) ∧
    (Auth.poll_and_authenticate interval (.formError e :: rest) =
      some (interval, .error (.authFailed e))) := by
  simp only [List.mem_cons, List.mem_singleton, not_or] at he
  obtain ⟨h1, h2, h3, h4, -⟩ := he
  refine ⟨Auth.poll_replicate_json_pending interval n,
    Auth.poll_replicate_form_pending interval n, rfl, rfl, rfl, rfl, rfl, rfl, rfl, rfl, ?_, ?_⟩
  · simp [Auth.poll_and_authenticate, Auth.pollStep, Auth.classifyProviderError,
      h1, h2, h3, h4]
  · simp [Auth.poll_and_authenticate, Auth.pollStep, Auth.classifyProviderError,
      h1, h2, h3, h4]

/-- Claim C8 witness: instantiated at interval 7, three pending responses,
and the provider error `invalid_grant`, which terminates with `AuthFailed`
in both encodings. -/
theorem claim_C8_witness :
    (Auth.poll_and_authenticate 7 [.jsonError "invalid_grant"] =
      some (7, .error (.authFailed "invalid_grant"))) ∧
    (Auth.poll_and_authenticate 7 [.formError "invalid_grant"] =
      some (7, .error (.authFailed "invalid_grant"))) := by
  have h := claim_C8 7 3 [] "invalid_grant" (by decide)
  exact ⟨h.2.2.2.2.2.2.2.2.2.2.1, h.2.2.2.2.2.2.2.2.2.2.2⟩

namespace Mc

/-! Lemmas about rule evaluation. -/

/-- The rule fold of `should_use_library` implements last-matching-rule
semantics: folding the override accumulator over the list equals taking the
first match of the REVERSED list. -/
theorem foldl_rules_eq_reverse_find (platform : String) :
    ∀ (rs : List Rule) (init : Option Bool),
      rs.foldl
        (fun dominated rule =>
          if ruleMatches platform rule then some (decide (rule.action = "allow"))
          else dominated)
        init =
      (match rs.reverse.find? (ruleMatches platform) with
       | some r => some (decide (r.action = "allow"))
       | none => init) := by
  intro rs
  induction rs with
  | nil => intro init; rfl
  | cons r rest ih =>
    intro init
    rw [List.foldl_cons, ih, List.reverse_cons, List.find?_append]
    cases hfind : rest.reverse.find? (ruleMatches platform) with
    | some r2 => rfl
    | none =>
      by_cases hr : ruleMatches platform r
      · simp [List.find?, hr]
      · simp [List.find?, hr]

/-- The rule fold (with default deny) equals the spec's
last-matching-rule-else-deny reading, for any platform. -/
theorem fold_getD_eq_spec (platform : String) (rs : List Rule) :
    (rs.foldl
      (fun dominated rule =>
        if ruleMatches platform rule then some (decide (rule.action = "allow"))
        else dominated)
      none).getD false = should_use_spec platform (some rs) := by
  rw [foldl_rules_eq_reverse_find]
  simp only [should_use_spec]
  cases rs.reverse.find? (ruleMatches platform) with
  | some r => rfl
  | none => rfl

end Mc

/-- Claim C6 (as amended): for every library, the applicability decision is
deterministic and equals the action of the last rule whose OS constraint
matches the literal OS name `windows` — the source hard-codes the platform,
it does not consult the running platform; it is deny when some rule exists
but none matches `windows`, and allow when the library has no rules at
all. -/
theorem claim_C6 (lib : Mc.Library) :
    (Mc.should_use_library lib = Mc.should_use_spec "windows" lib.rules) ∧
    (lib.rules = none → Mc.should_use_library lib = true) ∧
    (∀ rs, lib.rules = some rs → (∀ r ∈ rs, Mc.ruleMatches "windows" r = false) →
      Mc.should_use_library lib = false) := by
  obtain ⟨nm, dl, rules, na⟩ := lib
  have hcode : ∀ rs : List Mc.Rule,
      Mc.should_use_library ⟨nm, dl, some rs, na⟩ = Mc.should_use_spec "windows" (some rs) :=
    fun rs => Mc.fold_getD_eq_spec "windows" rs
  refine ⟨?_, ?_, ?_⟩
  · cases rules with
    | none => rfl
    | some rs => exact hcode rs
  · intro hnone
    cases rules with
    | none => rfl
    | some rs => cases hnone
  · intro rs hsome hnomatch
    cases rules with
    | none => cases hsome
    | some rs2 =>
      cases hsome
      rw [hcode rs]
      simp only [Mc.should_use_spec]
      have hfind : rs.reverse.find? (Mc.ruleMatches "windows") = none := by
        rw [List.find?_eq_none]
        intro r hr
        simp [hnomatch r (List.mem_reverse.mp hr)]
      rw [hfind]

/-- Claim C6 counterexample: the claim as stated — decision equals
last-matching-rule semantics against the RUNNING platform — is false on a
non-Windows platform: for a library whose single rule allows Linux only,
the spec semantics at platform `linux` yields allow, but the code (which
matches the hard-coded name `windows`) yields deny. -/
theorem claim_C6_counterexample :
    Mc.should_use_library Fixtures.libLinuxOnly = false ∧
      Mc.should_use_spec "linux" Fixtures.libLinuxOnly.rules = true := by
  decide

/-- Claim C6 witness: the no-rules case (library `libA`) yields allow, and
the some-rules-none-matching-windows case (`libLinuxOnly`) yields deny. -/
theorem claim_C6_witness :
    Mc.should_use_library Fixtures.libA = true ∧
      Mc.should_use_library Fixtures.libLinuxOnly = false :=
  ⟨(claim_C6 Fixtures.libA).2.1 rfl,
   (claim_C6 Fixtures.libLinuxOnly).2.2
     [⟨"allow", some ⟨some "linux", none⟩⟩] rfl (by decide)⟩

namespace Mc

/-! Lemmas about the download functions. -/

open FsModel

/-- Postcondition of a verified download: whenever it returns `Ok`, the
file at the target path matches the declared hash. -/
theorem verifiedFetch_postcondition (net : Net) (fs : Fs)
    (url path h : String) (fs2 : Fs)
    (hok : verifiedFetch net url path h fs = .ok fs2) :
    readEntry fs2 path = some h := by
  unfold verifiedFetch at hok
  cases hn : net url with
  | none =>
    rw [hn] at hok
    simp only at hok
    cases hok
  | some bytes =>
    rw [hn] at hok
    simp only at hok
    by_cases hb : bytes = h
    · rw [if_pos hb] at hok
      cases hok
      rw [readEntry_writeEntry_self, hb]
    · rw [if_neg hb] at hok; cases hok

theorem download_file_verified_postcondition (net : Net) (fs : Fs)
    (url path h : String) (fs2 : Fs)
    (hok : download_file_verified net url path h fs = .ok fs2) :
    readEntry fs2 path = some h := by
  unfold download_file_verified at hok
  cases hr : readEntry fs path with
  | some existing =>
    rw [hr] at hok
    simp only at hok
    by_cases he : existing = h
    · rw [if_pos he] at hok
      cases hok
      rw [hr, he]
    · rw [if_neg he] at hok
      exact verifiedFetch_postcondition net fs url path h fs2 hok
  | none =>
    rw [hr] at hok
    simp only at hok
    exact verifiedFetch_postcondition net fs url path h fs2 hok

/-- A pre-existing file whose content does not match the declared hash is
re-fetched and overwritten by a verified download. -/
theorem download_file_verified_refetch (net : Net) (fs : Fs)
    (url path h c : String) (hr : readEntry fs path = some c) (hneq : c ≠ h)
    (hn : net url = some h) :
    download_file_verified net url path h fs = .ok (writeEntry fs path h) := by
  unfold download_file_verified
  rw [hr]
  simp only [if_neg hneq, verifiedFetch, hn, eq_self_iff_true, if_true]

/-- The base-library step trusts a pre-existing primary-artifact file on
mere existence: whatever its content, the step succeeds without touching
the store. -/
theorem downloadLibraryStep_skips_existing (net : Net) (fs : Fs) (lib : Library)
    (dl : LibraryDownloads) (a : Artifact)
    (huse : should_use_library lib = true) (hdl : lib.downloads = some dl)
    (ha : dl.artifact = some a) (hnat : lib.natives = none)
    (hex : entryExists fs ("libraries/" ++ a.path) = true) :
    downloadLibraryStep net lib fs = .ok fs := by
  simp only [downloadLibraryStep, huse, if_true, hdl, ha, hnat, hex]

/-- An asset object whose sharded path already exists is skipped — whatever
the on-disk content, no verification and no fetch happen. -/
theorem download_assets_skips_existing (net : Net) (fs : Fs) (o : AssetObject)
    (hex : entryExists fs (assetObjectPath o) = true) :
    download_assets_objects net [o] fs = .ok fs := by
  simp only [download_assets_objects, hex, if_true]

/-- A freshly downloaded asset object is written WITHOUT hash
verification: whatever content the network returns is stored. -/
theorem download_assets_fresh_unverified (net : Net) (fs : Fs) (o : AssetObject)
    (c : String) (hex : entryExists fs (assetObjectPath o) = false)
    (hn : net (assetObjectUrl o) = some c) :
    download_assets_objects net [o] fs =
      .ok (writeEntry fs (assetObjectPath o) c) := by
  simp only [download_assets_objects, hex, Bool.false_eq_true, if_false,
    download_file, hn]

/-- The Fabric library loop never removes files. -/
theorem download_fabric_libraries_mono (net : Net) (libs : List FabricLibrary) :
    ∀ (fs : Fs) (p : String), entryExists fs p = true →
      entryExists (download_fabric_libraries net libs fs) p = true := by
  induction libs with
  | nil => intro fs p h; exact h
  | cons lib rest ih =>
    intro fs p h
    unfold download_fabric_libraries
    by_cases hex : entryExists fs (fabricLibPath lib) = true
    · rw [hex, if_pos rfl]
      exact ih fs p h
    · rw [Bool.not_eq_true] at hex
      rw [hex]
      simp only [Bool.false_eq_true, if_false]
      cases hn : net (fabricLibUrl lib) with
      | none =>
        simp only [download_file, hn]
        exact ih fs p h
      | some c =>
        simp only [download_file, hn]
        exact ih (writeEntry fs (fabricLibPath lib) c) p
          (entryExists_writeEntry_mono fs (fabricLibPath lib) p c h)

/-- After one Fabric loop step for a library whose URL the network serves,
that library's file exists. -/
theorem download_fabric_libraries_head (net : Net) (lib : FabricLibrary)
    (rest : List FabricLibrary) (fs : Fs) (c : String)
    (hn : net (fabricLibUrl lib) = some c) :
    entryExists (download_fabric_libraries net (lib :: rest) fs)
      (fabricLibPath lib) = true := by
  unfold download_fabric_libraries
  by_cases hex : entryExists fs (fabricLibPath lib) = true
  · rw [hex, if_pos rfl]
    exact download_fabric_libraries_mono net rest fs (fabricLibPath lib) hex
  · rw [Bool.not_eq_true] at hex
    rw [hex]
    simp only [Bool.false_eq_true, if_false, download_file, hn]
    exact download_fabric_libraries_mono net rest (writeEntry fs (fabricLibPath lib) c)
      (fabricLibPath lib) (entryExists_writeEntry_self fs (fabricLibPath lib) c)

/-- Any Fabric library that the network serves ends up on disk, wherever it
sits in the list — an earlier failed library does not stop the loop. -/
theorem download_fabric_libraries_covers (net : Net) :
    ∀ (libs : List FabricLibrary) (fs : Fs) (lib : FabricLibrary) (c : String),
      lib ∈ libs → net (fabricLibUrl lib) = some c →
      entryExists (download_fabric_libraries net libs fs) (fabricLibPath lib) = true := by
  intro libs
  induction libs with
  | nil => intro fs lib c hmem; cases hmem
  | cons l rest ih =>
    intro fs lib c hmem hn
    rcases List.mem_cons.mp hmem with rfl | hmem2
    · exact download_fabric_libraries_head net lib rest fs c hn
    · unfold download_fabric_libraries
      by_cases hex : entryExists fs (fabricLibPath l) = true
      · rw [hex, if_pos rfl]
        exact ih fs lib c hmem2 hn
      · rw [Bool.not_eq_true] at hex
        rw [hex]
        simp only [Bool.false_eq_true, if_false]
        cases hnl : net (fabricLibUrl l) with
        | none =>
          simp only [download_file, hnl]
          exact ih fs lib c hmem2 hn
        | some cl =>
          simp only [download_file, hnl]
          exact ih (writeEntry fs (fabricLibPath l) cl) lib c hmem2 hn

/-- An error in the step for one base-version library aborts the whole
library loop, regardless of how many libraries follow. -/
theorem download_minecraft_libraries_abort (net : Net) :
    ∀ (libs1 : List Library) (lib : Library) (libs2 : List Library)
      (fs fs1 : Fs) (e : MinecraftError),
      download_minecraft_libraries net libs1 fs = .ok fs1 →
      downloadLibraryStep net lib fs1 = .error e →
      download_minecraft_libraries net (libs1 ++ lib :: libs2) fs = .error e := by
  intro libs1
  induction libs1 with
  | nil =>
    intro lib libs2 fs fs1 e hok herr
    cases hok
    simp only [List.nil_append, download_minecraft_libraries, herr]
  | cons l rest ih =>
    intro lib libs2 fs fs1 e hok herr
    simp only [List.cons_append, download_minecraft_libraries] at hok ⊢
    cases hstep : downloadLibraryStep net l fs with
    | error e2 => simp only [hstep] at hok; cases hok
    | ok fs2 =>
      simp only [hstep] at hok ⊢
      exact ih lib libs2 fs2 fs1 e hok herr

end Mc

/-- Claim C1 (as amended): of the artifacts the acquisition pipeline can
treat as already present, only the runtime binary is re-verified against
its declared hash — a wrong-hash runtime file is re-fetched and
overwritten, and an `Ok` verified download always leaves the file matching
its hash.  A base-library primary artifact and a content-addressed asset
object, however, are trusted on mere path existence — a file with wrong
content is treated as present and is NOT re-fetched — and a freshly
downloaded asset object is written without any hash verification. -/
theorem claim_C1 :
    (∀ (net : Mc.Net) (fs : Mc.Fs) (url path h : String) (fs2 : Mc.Fs),
       Mc.download_file_verified net url path h fs = .ok fs2 →
       FsModel.readEntry fs2 path = some h) ∧
    (∀ (net : Mc.Net) (fs : Mc.Fs) (url path h c : String),
       FsModel.readEntry fs path = some c → c ≠ h → net url = some h →
       Mc.download_file_verified net url path h fs =
         .ok (FsModel.writeEntry fs path h)) ∧
    (∀ (net : Mc.Net) (fs : Mc.Fs) (lib : Mc.Library)
       (dl : Mc.LibraryDownloads) (a : Mc.Artifact),
       Mc.should_use_library lib = true → lib.downloads = some dl →
       dl.artifact = some a → lib.natives = none →
       FsModel.entryExists fs ("libraries/" ++ a.path) = true →
       Mc.downloadLibraryStep net lib fs = .ok fs) ∧
    (∀ (net : Mc.Net) (fs : Mc.Fs) (o : Mc.AssetObject),
       FsModel.entryExists fs (Mc.assetObjectPath o) = true →
       Mc.download_assets_objects net [o] fs = .ok fs) ∧
    (∀ (net : Mc.Net) (fs : Mc.Fs) (o : Mc.AssetObject) (c : String),
       FsModel.entryExists fs (Mc.assetObjectPath o) = false →
       net (Mc.assetObjectUrl o) = some c →
       Mc.download_assets_objects net [o] fs =
         .ok (FsModel.writeEntry fs (Mc.assetObjectPath o) c)) :=
  ⟨Mc.download_file_verified_postcondition,
   Mc.download_file_verified_refetch,
   Mc.downloadLibraryStep_skips_existing,
   Mc.download_assets_skips_existing,
   Mc.download_assets_fresh_unverified⟩

/-- Claim C1 counterexample: a base-library primary artifact file present
with content `BAD` ≠ declared hash `hA` is treated as present: the library
loop returns `Ok` with the store untouched and performs no re-fetch even
though the network has the correct content; likewise an asset object whose
sharded path holds junk.  This refutes the claim that every artifact
treated as present matches its declared hash and that a wrong-hash file is
re-fetched. -/
theorem claim_C1_counterexample :
    Mc.download_minecraft_libraries Fixtures.netAB [Fixtures.libA] Fixtures.fsWrongA =
        .ok Fixtures.fsWrongA ∧
      FsModel.readEntry Fixtures.fsWrongA "libraries/com/a/liba/1.0/liba-1.0.jar" =
        some "BAD" ∧
      ("BAD" : String) ≠ "hA" ∧
      Mc.download_assets_objects Fixtures.netAB [Fixtures.assetObj] Fixtures.fsWrongAsset =
        .ok Fixtures.fsWrongAsset ∧
      FsModel.readEntry Fixtures.fsWrongAsset "assets/objects/ab/abcdef" = some "JUNK" := by
  decide

/-- Claim C1 witness: the amended claim instantiated — a verified runtime
download lands matching content; a wrong-hash runtime file is re-fetched;
the wrong-content library file and asset object of the counterexample are
skipped; a junk asset download is stored unverified. -/
theorem claim_C1_witness :
    FsModel.readEntry [("p", "hA")] "p" = some "hA" ∧
      Mc.download_file_verified Fixtures.netAB "uA"
          "libraries/com/a/liba/1.0/liba-1.0.jar" "hA" Fixtures.fsWrongA =
        .ok (FsModel.writeEntry Fixtures.fsWrongA
          "libraries/com/a/liba/1.0/liba-1.0.jar" "hA") ∧
      Mc.downloadLibraryStep Fixtures.netAB Fixtures.libA Fixtures.fsWrongA =
        .ok Fixtures.fsWrongA ∧
      Mc.download_assets_objects Fixtures.netAB [Fixtures.assetObj] Fixtures.fsWrongAsset =
        .ok Fixtures.fsWrongAsset ∧
      Mc.download_assets_objects Fixtures.netAssetJunk [Fixtures.assetObj] [] =
        .ok [(Mc.assetObjectPath Fixtures.assetObj, "JUNK")] := by
  refine ⟨claim_C1.1 Fixtures.netAB [] "uA" "p" "hA" [("p", "hA")] (by decide),
    claim_C1.2.1 Fixtures.netAB Fixtures.fsWrongA "uA"
      "libraries/com/a/liba/1.0/liba-1.0.jar" "hA" "BAD" (by decide) (by decide) (by decide),
    claim_C1.2.2.1 Fixtures.netAB Fixtures.fsWrongA Fixtures.libA
      ⟨some ⟨"com/a/liba/1.0/liba-1.0.jar", "hA", 10, "uA"⟩, none⟩
      ⟨"com/a/liba/1.0/liba-1.0.jar", "hA", 10, "uA"⟩
      (by decide) (by decide) (by decide) (by decide) (by decide),
    claim_C1.2.2.2.1 Fixtures.netAB Fixtures.fsWrongAsset Fixtures.assetObj (by decide),
    ?_⟩
  have h := claim_C1.2.2.2.2 Fixtures.netAssetJunk [] Fixtures.assetObj "JUNK"
    (by decide) (by decide)
  simpa [FsModel.writeEntry] using h

/-- Claim C5 (as amended): a transport failure on one individual FABRIC
loader library is tolerated — the loop proceeds past it and every library
the network does serve ends up on disk — but a hash mismatch or transport
failure on an individual BASE-VERSION library aborts `download_minecraft`'s
library loop with `DownloadFailed` instead of being skipped. -/
theorem claim_C5 :
    (∀ (net : Mc.Net) (libs : List Mc.FabricLibrary) (fs : Mc.Fs)
       (lib : Mc.FabricLibrary) (c : String),
       lib ∈ libs → net (Mc.fabricLibUrl lib) = some c →
       FsModel.entryExists (Mc.download_fabric_libraries net libs fs)
         (Mc.fabricLibPath lib) = true) ∧
    (∀ (net : Mc.Net) (libs1 : List Mc.Library) (lib : Mc.Library)
       (libs2 : List Mc.Library) (fs fs1 : Mc.Fs) (e : Mc.MinecraftError),
       Mc.download_minecraft_libraries net libs1 fs = .ok fs1 →
       Mc.downloadLibraryStep net lib fs1 = .error e →
       Mc.download_minecraft_libraries net (libs1 ++ lib :: libs2) fs = .error e) :=
  ⟨fun net libs fs lib c hmem hn =>
     Mc.download_fabric_libraries_covers net libs fs lib c hmem hn,
   fun net libs1 lib libs2 fs fs1 e hok herr =>
     Mc.download_minecraft_libraries_abort net libs1 lib libs2 fs fs1 e hok herr⟩

/-- Claim C5 counterexample: with a network whose copy of `libA` is
corrupted, the base-version library loop ABORTS with a hash-mismatch
`DownloadFailed` — `libB` is never attempted — refuting the claim that an
individual library failure is logged, skipped, and lets the pipeline
proceed with a reduced library set. -/
theorem claim_C5_counterexample :
    Mc.download_minecraft_libraries Fixtures.netBadA [Fixtures.libA, Fixtures.libB] [] =
      .error (.downloadFailed (.hashMismatch "uA" "hA" "BAD")) := by
  decide

/-- Claim C5 witness: the Fabric loop with a failing first library still
installs the second one, and a single corrupted base library aborts the
base loop. -/
theorem claim_C5_witness :
    FsModel.entryExists
        (Mc.download_fabric_libraries Fixtures.netFab
          [Fixtures.fabLibFail, Fixtures.fabLibOk] [])
        (Mc.fabricLibPath Fixtures.fabLibOk) = true ∧
      Mc.download_minecraft_libraries Fixtures.netBadA [Fixtures.libA] [] =
        .error (.downloadFailed (.hashMismatch "uA" "hA" "BAD")) :=
  ⟨claim_C5.1 Fixtures.netFab [Fixtures.fabLibFail, Fixtures.fabLibOk] []
     Fixtures.fabLibOk "hG" (by decide) (by decide),
   claim_C5.2 Fixtures.netBadA [] Fixtures.libA [] [] []
     (.downloadFailed (.hashMismatch "uA" "hA" "BAD")) (by decide) (by decide)⟩

/-- Claim C7 (as amended): because rule evaluation matches the literal OS
name `windows` irrespective of the running platform, the Windows-only
library of the scenario is treated as applicable everywhere: acquisition
from an empty store downloads BOTH libraries, and classpath assembly over
the acquired store contains the runtime jar and both libraries. -/
theorem claim_C7 :
    Mc.should_use_library Fixtures.libB = true ∧
      Mc.download_minecraft_libraries Fixtures.netAB
          [Fixtures.libA, Fixtures.libB] [] =
        .ok [("libraries/com/a/liba/1.0/liba-1.0.jar", "hA"),
             ("libraries/com/b/libb/1.0/libb-1.0.jar", "hB")] ∧
      Mc.build_classpath Fixtures.fsABClient "1.20" none Fixtures.detailsAB =
        ["versions/1.20/1.20.jar",
         "libraries/com/a/liba/1.0/liba-1.0.jar",
         "libraries/com/b/libb/1.0/libb-1.0.jar"] := by
  decide

/-- Claim C7 counterexample: the claim predicts that (on a non-Windows
platform) only the unrestricted library is downloaded and the classpath is
exactly runtime-plus-that-library; in the code the Windows-only library is
also applicable (the OS name is hard-coded), is downloaded too, and appears
on the classpath, so the predicted download set and classpath are both
wrong. -/
theorem claim_C7_counterexample :
    Mc.download_minecraft_libraries Fixtures.netAB [Fixtures.libA, Fixtures.libB] [] ≠
        .ok [("libraries/com/a/liba/1.0/liba-1.0.jar", "hA")] ∧
      Mc.build_classpath Fixtures.fsABClient "1.20" none Fixtures.detailsAB ≠
        ["versions/1.20/1.20.jar", "libraries/com/a/liba/1.0/liba-1.0.jar"] := by
  decide

namespace Mc

/-! Lemmas about classpath assembly. -/

open FsModel

/-- The seen-set only grows during the Fabric phase. -/
theorem cpFabricT_seen_sub (fs : Fs) :
    ∀ (libs : List FabricLibrary) (seen : List String) (x : String),
      x ∈ seen → x ∈ (cpFabricT fs libs seen).2 := by
  intro libs
  induction libs with
  | nil => intro seen x hx; exact hx
  | cons lib rest ih =>
    intro seen x hx
    simp only [cpFabricT]
    by_cases hk : get_artifact_key lib.name ∈ seen
    · rw [if_pos hk]
      exact ih seen x hx
    · rw [if_neg hk]
      exact ih (seen ++ [get_artifact_key lib.name]) x (List.mem_append_left _ hx)

/-- Every Fabric library's key ends up in the Fabric phase's seen-set. -/
theorem cpFabricT_key_mem (fs : Fs) :
    ∀ (libs : List FabricLibrary) (seen : List String) (l : FabricLibrary),
      l ∈ libs → get_artifact_key l.name ∈ (cpFabricT fs libs seen).2 := by
  intro libs
  induction libs with
  | nil => intro seen l hl; cases hl
  | cons lib rest ih =>
    intro seen l hl
    simp only [cpFabricT]
    rcases List.mem_cons.mp hl with rfl | hl2
    · by_cases hk : get_artifact_key l.name ∈ seen
      · rw [if_pos hk]
        exact cpFabricT_seen_sub fs rest seen _ hk
      · rw [if_neg hk]
        exact cpFabricT_seen_sub fs rest (seen ++ [get_artifact_key l.name]) _
          (List.mem_append_right _ (List.mem_singleton.mpr rfl))
    · by_cases hk : get_artifact_key lib.name ∈ seen
      · rw [if_pos hk]
        exact ih seen l hl2
      · rw [if_neg hk]
        exact ih (seen ++ [get_artifact_key lib.name]) l hl2

/-- Every entry produced by the Fabric phase has fabric origin, carries a
key that was not yet seen, and registers that key in the final seen-set. -/
theorem cpFabricT_entries (fs : Fs) :
    ∀ (libs : List FabricLibrary) (seen : List String) (e : CpEntry),
      e ∈ (cpFabricT fs libs seen).1 →
      e.origin = .fabric ∧ get_artifact_key e.name ∉ seen ∧
        get_artifact_key e.name ∈ (cpFabricT fs libs seen).2 := by
  intro libs
  induction libs with
  | nil => intro seen e he; cases he
  | cons lib rest ih =>
    intro seen e he
    simp only [cpFabricT] at he ⊢
    by_cases hk : get_artifact_key lib.name ∈ seen
    · rw [if_pos hk] at he ⊢
      exact ih seen e he
    · rw [if_neg hk] at he ⊢
      by_cases hex : entryExists fs ("libraries/" ++ maven_to_path lib.name) = true
      · rw [hex, if_pos rfl] at he
        rcases List.mem_cons.mp he with rfl | he2
        · refine ⟨rfl, hk, ?_⟩
          exact cpFabricT_seen_sub fs rest (seen ++ [get_artifact_key lib.name]) _
            (List.mem_append_right _ (List.mem_singleton.mpr rfl))
        · obtain ⟨ho, hns, hin⟩ := ih (seen ++ [get_artifact_key lib.name]) e he2
          exact ⟨ho, fun hc => hns (List.mem_append_left _ hc), hin⟩
      · rw [Bool.not_eq_true] at hex
        rw [hex] at he
        simp only [Bool.false_eq_true, if_false] at he
        obtain ⟨ho, hns, hin⟩ := ih (seen ++ [get_artifact_key lib.name]) e he
        exact ⟨ho, fun hc => hns (List.mem_append_left _ hc), hin⟩

/-- The keys of the Fabric-phase entries are pairwise distinct. -/
theorem cpFabricT_nodup (fs : Fs) :
    ∀ (libs : List FabricLibrary) (seen : List String),
      ((cpFabricT fs libs seen).1.map (fun e => get_artifact_key e.name)).Nodup := by
  intro libs
  induction libs with
  | nil => intro seen; simp [cpFabricT]
  | cons lib rest ih =>
    intro seen
    simp only [cpFabricT]
    by_cases hk : get_artifact_key lib.name ∈ seen
    · rw [if_pos hk]
      exact ih seen
    · rw [if_neg hk]
      by_cases hex : entryExists fs ("libraries/" ++ maven_to_path lib.name) = true
      · rw [hex, if_pos rfl]
        simp only [List.map_cons, List.nodup_cons]
        refine ⟨?_, ih (seen ++ [get_artifact_key lib.name])⟩
        intro hc
        rcases List.mem_map.mp hc with ⟨e, he, hkey⟩
        obtain ⟨-, hns, -⟩ := cpFabricT_entries fs rest (seen ++ [get_artifact_key lib.name]) e he
        exact hns (by rw [hkey]; exact List.mem_append_right _ (List.mem_singleton.mpr rfl))
      · rw [Bool.not_eq_true] at hex
        rw [hex]
        simp only [Bool.false_eq_true, if_false]
        exact ih (seen ++ [get_artifact_key lib.name])

/-- When the loader profile declares pairwise-distinct keys, every profile
library whose key is unseen and whose file exists contributes its entry. -/
theorem cpFabricT_mem_pos (fs : Fs) :
    ∀ (libs : List FabricLibrary) (seen : List String) (l : FabricLibrary),
      (libs.map (fun x => get_artifact_key x.name)).Nodup → l ∈ libs →
      get_artifact_key l.name ∉ seen →
      entryExists fs ("libraries/" ++ maven_to_path l.name) = true →
      (⟨.fabric, l.name, "libraries/" ++ maven_to_path l.name⟩ : CpEntry) ∈
        (cpFabricT fs libs seen).1 := by
  intro libs
  induction libs with
  | nil => intro seen l _ hl; cases hl
  | cons lib rest ih =>
    intro seen l hnd hl hns hex
    simp only [List.map_cons, List.nodup_cons] at hnd
    simp only [cpFabricT]
    rcases List.mem_cons.mp hl with rfl | hl2
    · rw [if_neg hns, hex, if_pos rfl]
      exact List.mem_cons_self _ _
    · by_cases hk : get_artifact_key lib.name ∈ seen
      · rw [if_pos hk]
        exact ih seen l hnd.2 hl2 hns hex
      · rw [if_neg hk]
        have hne : get_artifact_key l.name ≠ get_artifact_key lib.name := by
          intro hc
          exact hnd.1 (hc ▸ List.mem_map.mpr ⟨l, hl2, rfl⟩)
        have hns2 : get_artifact_key l.name ∉ seen ++ [get_artifact_key lib.name] := by
          intro hc
          rcases List.mem_append.mp hc with hc1 | hc2
          · exact hns hc1
          · exact hne (List.mem_singleton.mp hc2)
        have hmem := ih (seen ++ [get_artifact_key lib.name]) l hnd.2 hl2 hns2 hex
        by_cases hex2 : entryExists fs ("libraries/" ++ maven_to_path lib.name) = true
        · rw [hex2, if_pos rfl]
          exact List.mem_cons_of_mem _ hmem
        · rw [Bool.not_eq_true] at hex2
          rw [hex2]
          simpa using hmem

/-- Every entry produced by the vanilla phase has vanilla origin and
carries a key that was not yet seen when the phase started. -/
theorem cpVanillaT_entries (fs : Fs) :
    ∀ (libs : List Library) (seen : List String) (e : CpEntry),
      e ∈ (cpVanillaT fs libs seen).1 →
      e.origin = .vanilla ∧ get_artifact_key e.name ∉ seen := by
  intro libs
  induction libs with
  | nil => intro seen e he; cases he
  | cons lib rest ih =>
    intro seen e he
    simp only [cpVanillaT] at he
    by_cases hu : should_use_library lib = true
    · rw [if_pos hu] at he
      by_cases hk : get_artifact_key lib.name ∈ seen
      · rw [if_pos hk] at he
        exact ih seen e he
      · rw [if_neg hk] at he
        have weaken : e ∈ (cpVanillaT fs rest (seen ++ [get_artifact_key lib.name])).1 →
            e.origin = .vanilla ∧ get_artifact_key e.name ∉ seen := by
          intro hmem
          obtain ⟨ho, hns⟩ := ih (seen ++ [get_artifact_key lib.name]) e hmem
          exact ⟨ho, fun hc => hns (List.mem_append_left _ hc)⟩
        cases hd : lib.downloads with
        | none => simp only [hd] at he; exact weaken he
        | some dl =>
          simp only [hd] at he
          cases ha : dl.artifact with
          | none => simp only [ha] at he; exact weaken he
          | some a =>
            simp only [ha] at he
            by_cases hex : entryExists fs ("libraries/" ++ a.path) = true
            · rw [hex, if_pos rfl] at he
              rcases List.mem_cons.mp he with rfl | he2
              · exact ⟨rfl, hk⟩
              · exact weaken he2
            · rw [Bool.not_eq_true] at hex
              rw [hex] at he
              simp only [Bool.false_eq_true, if_false] at he
              exact weaken he
    · rw [if_neg hu] at he
      exact ih seen e he

/-- The keys of the vanilla-phase entries are pairwise distinct. -/
theorem cpVanillaT_nodup (fs : Fs) :
    ∀ (libs : List Library) (seen : List String),
      ((cpVanillaT fs libs seen).1.map (fun e => get_artifact_key e.name)).Nodup := by
  intro libs
  induction libs with
  | nil => intro seen; simp [cpVanillaT]
  | cons lib rest ih =>
    intro seen
    simp only [cpVanillaT]
    by_cases hu : should_use_library lib = true
    · rw [if_pos hu]
      by_cases hk : get_artifact_key lib.name ∈ seen
      · rw [if_pos hk]
        exact ih seen
      · rw [if_neg hk]
        cases hd : lib.downloads with
        | none => simp only [hd]; exact ih (seen ++ [get_artifact_key lib.name])
        | some dl =>
          simp only [hd]
          cases ha : dl.artifact with
          | none => simp only [ha]; exact ih (seen ++ [get_artifact_key lib.name])
          | some a =>
            simp only [ha]
            by_cases hex : entryExists fs ("libraries/" ++ a.path) = true
            · rw [hex, if_pos rfl]
              simp only [List.map_cons, List.nodup_cons]
              refine ⟨?_, ih (seen ++ [get_artifact_key lib.name])⟩
              intro hc
              rcases List.mem_map.mp hc with ⟨e, he, hkey⟩
              obtain ⟨-, hns⟩ :=
                cpVanillaT_entries fs rest (seen ++ [get_artifact_key lib.name]) e he
              exact hns
                (by rw [hkey]; exact List.mem_append_right _ (List.mem_singleton.mpr rfl))
            · rw [Bool.not_eq_true] at hex
              rw [hex]
              simp only [Bool.false_eq_true, if_false]
              exact ih (seen ++ [get_artifact_key lib.name])
    · rw [if_neg hu]
      exact ih seen

/-- The untagged Fabric phase is the tagged one with the tags erased. -/
theorem cpFabric_eq_tagged (fs : Fs) :
    ∀ (libs : List FabricLibrary) (seen : List String),
      cpFabric fs libs seen =
        ((cpFabricT fs libs seen).1.map CpEntry.path, (cpFabricT fs libs seen).2) := by
  intro libs
  induction libs with
  | nil => intro seen; rfl
  | cons lib rest ih =>
    intro seen
    simp only [cpFabric, cpFabricT]
    by_cases hk : get_artifact_key lib.name ∈ seen
    · rw [if_pos hk, if_pos hk]
      exact ih seen
    · rw [if_neg hk, if_neg hk]
      rw [ih (seen ++ [get_artifact_key lib.name])]
      by_cases hex : entryExists fs ("libraries/" ++ maven_to_path lib.name) = true <;>
        simp [hex]

/-- The untagged vanilla phase is the tagged one with the tags erased. -/
theorem cpVanilla_eq_tagged (fs : Fs) :
    ∀ (libs : List Library) (seen : List String),
      cpVanilla fs libs seen =
        ((cpVanillaT fs libs seen).1.map CpEntry.path, (cpVanillaT fs libs seen).2) := by
  intro libs
  induction libs with
  | nil => intro seen; rfl
  | cons lib rest ih =>
    intro seen
    simp only [cpVanilla, cpVanillaT]
    by_cases hu : should_use_library lib = true
    · rw [if_pos hu, if_pos hu]
      by_cases hk : get_artifact_key lib.name ∈ seen
      · rw [if_pos hk, if_pos hk]
        exact ih seen
      · rw [if_neg hk, if_neg hk]
        rw [ih (seen ++ [get_artifact_key lib.name])]
        cases hd : lib.downloads with
        | none => simp only [hd]
        | some dl =>
          simp only [hd]
          cases ha : dl.artifact with
          | none => simp only [ha]
          | some a =>
            simp only [ha]
            by_cases hex : entryExists fs ("libraries/" ++ a.path) = true <;>
              simp [hex]
    · rw [if_neg hu, if_neg hu]
      exact ih seen

/-- `build_classpath` is `build_classpath_tagged` with the tags erased. -/
theorem build_classpath_eq_tagged (fs : Fs) (mc_version : String)
    (fabricProfile : Option FabricProfile) (details : VersionDetails) :
    build_classpath fs mc_version fabricProfile details =
      (build_classpath_tagged fs mc_version fabricProfile details).map CpEntry.path := by
  cases fabricProfile with
  | none =>
    simp only [build_classpath, build_classpath_tagged, cpVanilla_eq_tagged fs]
    by_cases hex : entryExists fs (clientJarPath mc_version) = true <;>
      simp [hex]
  | some fpp =>
    simp only [build_classpath, build_classpath_tagged, cpFabric_eq_tagged fs,
      cpVanilla_eq_tagged fs]
    by_cases hex : entryExists fs (clientJarPath mc_version) = true <;>
      simp [hex]

/-- Shape of the tagged classpath without a loader profile. -/
theorem build_classpath_tagged_none (fs : Fs) (mc_version : String)
    (details : VersionDetails) :
    build_classpath_tagged fs mc_version none details =
      (if entryExists fs (clientJarPath mc_version) then
        [(⟨.client, "", clientJarPath mc_version⟩ : CpEntry)]
       else []) ++ [] ++ (cpVanillaT fs details.libraries []).1 := rfl

/-- Shape of the tagged classpath with a loader profile. -/
theorem build_classpath_tagged_some (fs : Fs) (mc_version : String)
    (fp : FabricProfile) (details : VersionDetails) :
    build_classpath_tagged fs mc_version (some fp) details =
      (if entryExists fs (clientJarPath mc_version) then
        [(⟨.client, "", clientJarPath mc_version⟩ : CpEntry)]
       else []) ++ (cpFabricT fs fp.libraries []).1 ++
        (cpVanillaT fs details.libraries (cpFabricT fs fp.libraries []).2).1 := rfl

/-- The client part of the classpath never contributes a library entry. -/
theorem client_part_filter (fs : Fs) (mc_version : String) :
    ((if entryExists fs (clientJarPath mc_version) then
        [(⟨.client, "", clientJarPath mc_version⟩ : CpEntry)]
      else []) : List CpEntry).filter (fun e => e.origin ≠ CpOrigin.client) = [] := by
  by_cases hex : entryExists fs (clientJarPath mc_version) = true <;> simp [hex]

end Mc

namespace DepResolver

/-! Lemmas about the recursive resolution. -/

/-- The fixed point of the mismatching registry: every pass on
`dirAlphaBar` "successfully" installs `foo` again (overwriting `bar.jar`
with identical bytes), never shrinks the missing set, and therefore no
amount of fuel terminates the recursion. -/
theorem run_regMismatch_dirAlphaBar_none :
    ∀ n, resolve_and_install_dependencies Fixtures.regMismatch n Fixtures.dirAlphaBar =
      none := by
  intro n
  induction n with
  | zero => rfl
  | succ k ih =>
    have h1 : resolve_dependencies (some Fixtures.dirAlphaBar) =
        .ok ⟨[⟨"foo", some "*"⟩], ["alpha", "bar"]⟩ := by decide
    have h2 : installPass Fixtures.regMismatch [⟨"foo", some "*"⟩] Fixtures.dirAlphaBar =
        (["foo"], Fixtures.dirAlphaBar) := by decide
    simp only [resolve_and_install_dependencies, h1, h2, List.isEmpty_cons,
      Bool.false_eq_true, if_false, ih]

end DepResolver

/-- Claim C3 (as amended): the recursion ends as soon as a pass installs
nothing (returning the empty list), but a pass that does install something
need not strictly grow the installed-identifier set — a "successful"
installation may deliver an archive declaring a different identifier than
the one requested, in which case the same still-missing package is retried
on every subsequent pass and the recursion does not terminate under any
amount of fuel. -/
theorem claim_C3 :
    (∀ (reg : DepResolver.Registry) (d : DepResolver.Dir) (fuel : Nat),
       (DepResolver.installPass reg (DepResolver.missingOf d) d).1 = [] →
       DepResolver.resolve_and_install_dependencies reg (fuel + 1) d =
         some (.ok [], (DepResolver.installPass reg (DepResolver.missingOf d) d).2)) ∧
    (∀ fuel, DepResolver.resolve_and_install_dependencies Fixtures.regMismatch fuel
       Fixtures.dirAlpha = none) ∧
    ("foo" ∈ (DepResolver.missingOf Fixtures.dirAlphaBar).map
       DepResolver.ModDependency.mod_id) := by
  refine ⟨?_, ?_, by decide⟩
  · intro reg d fuel hpass
    have hres : DepResolver.resolve_dependencies (some d) =
        .ok ⟨DepResolver.missingOf d, DepResolver.installedIdsOf d⟩ := rfl
    simp only [DepResolver.resolve_and_install_dependencies, hres]
    by_cases hm : (DepResolver.missingOf d).isEmpty
    · have hmiss : DepResolver.missingOf d = [] := List.isEmpty_iff.mp hm
      simp only [hm, if_true]
      rw [hmiss]
      rfl
    · simp only [hm, Bool.false_eq_true, if_false, hpass, List.isEmpty_nil, if_true]
  · intro fuel
    cases fuel with
    | zero => rfl
    | succ k =>
      have h1 : DepResolver.resolve_dependencies (some Fixtures.dirAlpha) =
          .ok ⟨[⟨"foo", some "*"⟩], ["alpha"]⟩ := by decide
      have h2 : DepResolver.installPass Fixtures.regMismatch [⟨"foo", some "*"⟩]
          Fixtures.dirAlpha = (["foo"], Fixtures.dirAlphaBar) := by decide
      simp only [DepResolver.resolve_and_install_dependencies, h1, h2, List.isEmpty_cons,
        Bool.false_eq_true, if_false, DepResolver.run_regMismatch_dirAlphaBar_none k]

/-- Claim C3 counterexample: on the mismatching registry, a pass from the
state `dirAlphaBar` installs something (`foo` "succeeds") yet leaves the
directory — and hence the installed-identifier set — completely unchanged,
and twenty passes' worth of fuel does not terminate the resolution started
at `dirAlpha`; this refutes "each pass either installs nothing or strictly
grows the installed set" and with it the termination argument. -/
theorem claim_C3_counterexample :
    DepResolver.installPass Fixtures.regMismatch [⟨"foo", some "*"⟩]
        Fixtures.dirAlphaBar = (["foo"], Fixtures.dirAlphaBar) ∧
      DepResolver.resolve_dependencies (some Fixtures.dirAlphaBar) =
        .ok ⟨[⟨"foo", some "*"⟩], ["alpha", "bar"]⟩ ∧
      DepResolver.resolve_and_install_dependencies Fixtures.regMismatch 20
        Fixtures.dirAlpha = none := by
  decide

/-- Claim C3 witness: a pass in which every installation fails (the
all-failing registry) ends the recursion immediately with the empty
result. -/
theorem claim_C3_witness :
    DepResolver.resolve_and_install_dependencies Fixtures.regNone 5 Fixtures.dirAlpha =
      some (.ok [], Fixtures.dirAlpha) := by
  have h := claim_C3.1 Fixtures.regNone Fixtures.dirAlpha 4 (by decide)
  rw [show (DepResolver.installPass Fixtures.regNone
    (DepResolver.missingOf Fixtures.dirAlpha) Fixtures.dirAlpha).2 = Fixtures.dirAlpha
    from by decide] at h
  exact h

/-- Claim C2: for every on-disk state, loader profile and base-version
library list, the classpath (instrumented with provenance, of which the
real `build_classpath` is the path projection) never contains two library
entries whose maven coordinates share a version-stripped `group:artifact`
key; no base-runtime entry is ever included for a key that any loader
library declares; and when the loader profile's keys are pairwise distinct,
every loader library whose file exists on disk has its path included. -/
theorem claim_C2 (fs : Mc.Fs) (mc_version : String)
    (fp : Option Mc.FabricProfile) (dt : Mc.VersionDetails) :
    (Mc.build_classpath fs mc_version fp dt =
      (Mc.build_classpath_tagged fs mc_version fp dt).map Mc.CpEntry.path) ∧
    (((Mc.build_classpath_tagged fs mc_version fp dt).filter
        (fun e => e.origin ≠ Mc.CpOrigin.client)).map
        (fun e => Mc.get_artifact_key e.name)).Nodup ∧
    (∀ fpp, fp = some fpp → ∀ f ∈ fpp.libraries,
       ∀ e ∈ Mc.build_classpath_tagged fs mc_version fp dt,
       e.origin = Mc.CpOrigin.vanilla →
       Mc.get_artifact_key e.name ≠ Mc.get_artifact_key f.name) ∧
    (∀ fpp, fp = some fpp →
       (fpp.libraries.map (fun l => Mc.get_artifact_key l.name)).Nodup →
       ∀ f ∈ fpp.libraries,
       FsModel.entryExists fs ("libraries/" ++ Mc.maven_to_path f.name) = true →
       ("libraries/" ++ Mc.maven_to_path f.name) ∈
         Mc.build_classpath fs mc_version fp dt) := by
  refine ⟨Mc.build_classpath_eq_tagged fs mc_version fp dt, ?_, ?_, ?_⟩
  · cases fp with
    | none =>
      rw [Mc.build_classpath_tagged_none, List.filter_append, List.filter_append,
        Mc.client_part_filter]
      have hv : ((Mc.cpVanillaT fs dt.libraries []).1.filter
          (fun e => e.origin ≠ Mc.CpOrigin.client)) = (Mc.cpVanillaT fs dt.libraries []).1 := by
        rw [List.filter_eq_self]
        intro e he
        obtain ⟨ho, -⟩ := Mc.cpVanillaT_entries fs dt.libraries [] e he
        simp [ho]
      simp only [List.filter_nil, List.nil_append, hv]
      exact Mc.cpVanillaT_nodup fs dt.libraries []
    | some fpp =>
      rw [Mc.build_classpath_tagged_some, List.filter_append, List.filter_append,
        Mc.client_part_filter]
      have hf : ((Mc.cpFabricT fs fpp.libraries []).1.filter
          (fun e => e.origin ≠ Mc.CpOrigin.client)) = (Mc.cpFabricT fs fpp.libraries []).1 := by
        rw [List.filter_eq_self]
        intro e he
        obtain ⟨ho, -, -⟩ := Mc.cpFabricT_entries fs fpp.libraries [] e he
        simp [ho]
      have hv : ((Mc.cpVanillaT fs dt.libraries
            (Mc.cpFabricT fs fpp.libraries []).2).1.filter
          (fun e => e.origin ≠ Mc.CpOrigin.client)) =
          (Mc.cpVanillaT fs dt.libraries (Mc.cpFabricT fs fpp.libraries []).2).1 := by
        rw [List.filter_eq_self]
        intro e he
        obtain ⟨ho, -⟩ := Mc.cpVanillaT_entries fs dt.libraries
          (Mc.cpFabricT fs fpp.libraries []).2 e he
        simp [ho]
      simp only [List.nil_append, hf, hv, List.map_append]
      rw [List.nodup_append]
      refine ⟨Mc.cpFabricT_nodup fs fpp.libraries [],
        Mc.cpVanillaT_nodup fs dt.libraries _, ?_⟩
      intro x hxf hxv
      rcases List.mem_map.mp hxf with ⟨ef, hef, hkf⟩
      rcases List.mem_map.mp hxv with ⟨ev, hev, hkv⟩
      obtain ⟨-, -, hin⟩ := Mc.cpFabricT_entries fs fpp.libraries [] ef hef
      obtain ⟨-, hns⟩ := Mc.cpVanillaT_entries fs dt.libraries
        (Mc.cpFabricT fs fpp.libraries []).2 ev hev
      exact hns (by rw [hkv, ← hkf]; exact hin)
  · intro fpp hfp f hf e he hor heq
    subst hfp
    rw [Mc.build_classpath_tagged_some] at he
    rcases List.mem_append.mp he with he1 | hev
    · rcases List.mem_append.mp he1 with hec | hef
      · by_cases hex : FsModel.entryExists fs (Mc.clientJarPath mc_version) = true
        · rw [hex, if_pos rfl] at hec
          rcases List.mem_singleton.mp hec with rfl
          cases hor
        · rw [Bool.not_eq_true] at hex
          rw [hex] at hec
          simp at hec
      · obtain ⟨ho, -, -⟩ := Mc.cpFabricT_entries fs fpp.libraries [] e hef
        rw [ho] at hor
        cases hor
    · obtain ⟨-, hns⟩ := Mc.cpVanillaT_entries fs dt.libraries
        (Mc.cpFabricT fs fpp.libraries []).2 e hev
      exact hns (heq ▸ Mc.cpFabricT_key_mem fs fpp.libraries [] f hf)
  · intro fpp hfp hnd f hf hex
    subst hfp
    rw [Mc.build_classpath_eq_tagged, Mc.build_classpath_tagged_some]
    have hmem := Mc.cpFabricT_mem_pos fs fpp.libraries [] f hnd hf (by simp) hex
    refine List.mem_map.mpr ⟨⟨.fabric, f.name, "libraries/" ++ Mc.maven_to_path f.name⟩,
      ?_, rfl⟩
    exact List.mem_append.mpr (Or.inl (List.mem_append.mpr (Or.inr hmem)))

/-- Claim C2 witness: the loader's `com.x:dup:2.0` and the base runtime's
`com.x:dup:1.0` share the key `com.x:dup` and both files exist on disk; the
loader's path is on the classpath, and the remaining vanilla entry
(`org.z:other`) does not collide with the loader's key. -/
theorem claim_C2_witness :
    ("libraries/com/x/dup/2.0/dup-2.0.jar" ∈
      Mc.build_classpath Fixtures.fsDup "1.20" (some Fixtures.fpDup) Fixtures.dtDup) ∧
    Mc.get_artifact_key "org.z:other:1.0" ≠ Mc.get_artifact_key "com.x:dup:2.0" := by
  constructor
  · have h := (claim_C2 Fixtures.fsDup "1.20" (some Fixtures.fpDup) Fixtures.dtDup).2.2.2
      Fixtures.fpDup rfl (by decide) ⟨"com.x:dup:2.0", none⟩ (by decide) (by decide)
    simpa using h
  · have h := (claim_C2 Fixtures.fsDup "1.20" (some Fixtures.fpDup) Fixtures.dtDup).2.2.1
      Fixtures.fpDup rfl ⟨"com.x:dup:2.0", none⟩ (by decide)
      ⟨.vanilla, "org.z:other:1.0", "libraries/org/z/other/1.0/other-1.0.jar"⟩
      (by decide) rfl
    simpa using h
